import Mathlib

/-!
Verification development for the incremental multi-source news-crawl engine
(`NewsCrawlerV4` in `APscheduler/db/Nnews_Crawler_v4.py`, with the near-duplicate
variants `Nnews_Crawler_v3.py` and `Nnews_Crawler_CSV.py`).

The Python code is shallowly embedded: pure string manipulation
(`clean_date`) is translated directly; the browser, database and sink are
abstracted as an explicit environment record, and the per-day runner
(`process_day_press`) and the orchestrator loop (`run`) become state-passing
functions over that environment.  Machine-level effects (Selenium calls,
SQL execution) appear only through their observable outcomes recorded in the
environment.
-/

namespace Crawler

/-! ## String primitives (models of the Python `str` operations used) -/

/-- One scan step of Python `str.replace`: at each position, if the pattern is a
prefix, emit the replacement and skip the pattern, else keep one character.
The `Nat` argument is fuel; each step consumes at least one character, so fuel
equal to the list length is sufficient. -/
def replaceAux (pat rep : List Char) : Nat → List Char → List Char
  | 0, s => s
  | n + 1, s =>
    match s with
    | [] => []
    | c :: cs =>
      if pat.isPrefixOf s then rep ++ replaceAux pat rep n (List.drop pat.length s)
      else c :: replaceAux pat rep n cs

/-- Python `s.replace(pat, rep)` (all occurrences, left to right,
non-overlapping).  The crawler only calls it with non-empty patterns. -/
def replaceL (pat rep l : List Char) : List Char :=
  if pat.isEmpty then l else replaceAux pat rep l.length l

/-- Python `s.strip()`: drop whitespace from both ends. -/
def trimL (l : List Char) : List Char :=
  ((l.dropWhile Char.isWhitespace).reverse.dropWhile Char.isWhitespace).reverse

/-- Python substring test `pat in s`. -/
def containsL : List Char → List Char → Bool
  | [], pat => pat.isEmpty
  | c :: cs, pat => pat.isPrefixOf (c :: cs) || containsL cs pat

/-- Substring test on `String`s, Python `pat in s`. -/
def strContains (s pat : String) : Bool :=
  containsL s.toList pat.toList

/-! ## `clean_date` (`NewsCrawlerV4.clean_date`, identical in `Nnews_Crawler_v3`) -/

/-- First preprocessing line of `clean_date`:
`str(date_str).replace("기사입력", "").replace("입력", "").strip()`. -/
def stripBoiler (l : List Char) : List Char :=
  trimL (replaceL "입력".toList [] (replaceL "기사입력".toList [] l))

/-- Meridiem-marker removal of `clean_date`:
`date_str.replace("오전", "").replace("오후", "").strip()`. -/
def stripMeridiem (l : List Char) : List Char :=
  trimL (replaceL "오후".toList [] (replaceL "오전".toList [] l))

/-- Leading decimal-digit run of a character list, paired with the remainder. -/
def digitRun : List Char → List Char × List Char
  | [] => ([], [])
  | c :: cs =>
    if c.isDigit then
      let p := digitRun cs
      (c :: p.1, p.2)
    else ([], c :: cs)

/-- Numeric value of a digit run. -/
def natOfDigits (l : List Char) : Nat :=
  l.foldl (fun a c => a * 10 + (c.toNat - 48)) 0

/-- Gregorian leap-year test, as `datetime` validates calendar dates. -/
def isLeap (y : Nat) : Bool :=
  (y % 4 == 0 && y % 100 != 0) || y % 400 == 0

/-- Length of a month, as `datetime` validates calendar dates. -/
def daysInMonth (y m : Nat) : Nat :=
  if m == 2 then (if isLeap y then 29 else 28)
  else if m == 4 || m == 6 || m == 9 || m == 11 then 30
  else 31

/-- A parsed `%Y.%m.%d. %H:%M` timestamp. -/
structure ParsedDT where
  year : Nat
  month : Nat
  day : Nat
  hour : Nat
  minute : Nat
deriving DecidableEq

/-- `datetime.strptime(s, "%Y.%m.%d. %H:%M")` as `clean_date` calls it:
a 4-digit year, 1-2 digit month (1-12), day (1-31), hour (0-23) and
minute (0-59) fields, literal dots and colon, at least one whitespace
character where the format has a space (Python compiles format whitespace
to `\s+`), the whole string consumed, and the calendar checks `datetime`
itself enforces (`MINYEAR = 1`, day within the month's length). -/
def parseKDate (l : List Char) : Option ParsedDT :=
  let py := digitRun l
  let y := natOfDigits py.1
  if py.1.length ≠ 4 then none else
  match py.2 with
  | '.' :: r2 =>
    let pm := digitRun r2
    let mo := natOfDigits pm.1
    if pm.1.length < 1 ∨ 2 < pm.1.length ∨ mo < 1 ∨ 12 < mo then none else
    match pm.2 with
    | '.' :: r4 =>
      let pd := digitRun r4
      let da := natOfDigits pd.1
      if pd.1.length < 1 ∨ 2 < pd.1.length ∨ da < 1 ∨ 31 < da then none else
      match pd.2 with
      | '.' :: r6 =>
        let ws := r6.takeWhile Char.isWhitespace
        let r7 := r6.dropWhile Char.isWhitespace
        if ws.length < 1 then none else
        let ph := digitRun r7
        let ho := natOfDigits ph.1
        if ph.1.length < 1 ∨ 2 < ph.1.length ∨ 23 < ho then none else
        match ph.2 with
        | ':' :: r9 =>
          let pmin := digitRun r9
          let mi := natOfDigits pmin.1
          if pmin.1.length < 1 ∨ 2 < pmin.1.length ∨ 59 < mi then none else
          if pmin.2 ≠ [] then none else
          if y < 1 then none else
          if daysInMonth y mo < da then none else
          some ⟨y, mo, da, ho, mi⟩
        | _ => none
      | _ => none
    | _ => none
  | _ => none

/-- Decimal digit character. -/
def digitChar (n : Nat) : Char :=
  Char.ofNat (48 + n)

/-- Two-digit zero-padded rendering (`%H`, `%M`, `%d`, `%m` of `strftime`). -/
def pad2 (n : Nat) : List Char :=
  [digitChar (n / 10 % 10), digitChar (n % 10)]

/-- Four-digit zero-padded rendering (`%Y` of `strftime`). -/
def pad4 (n : Nat) : List Char :=
  [digitChar (n / 1000 % 10), digitChar (n / 100 % 10),
   digitChar (n / 10 % 10), digitChar (n % 10)]

/-- `dt.strftime("%Y-%m-%d %H:%M:%S")` for a parsed value (seconds are
always zero since the parse template has no seconds field). -/
def formatDT (p : ParsedDT) : String :=
  String.mk (pad4 p.year ++ "-".toList ++ pad2 p.month ++ "-".toList ++ pad2 p.day
    ++ " ".toList ++ pad2 p.hour ++ ":".toList ++ pad2 p.minute ++ ":00".toList)

/-- `NewsCrawlerV4.clean_date` (lines 99-116; textually identical logic in
`Nnews_Crawler_v3.clean_date`).  Strips boilerplate, records whether the
meridiem marker "오후" is present, strips the markers, parses the fixed
template, converts 12-hour to 24-hour time, and renders canonically.
Any failure inside the `try` block — template parse failure, calendar
rejection, or `dt.replace(hour=dt.hour+12)` overflowing past 23 — lands in
the bare `except`, which returns `date_str` as it stands at that point,
i.e. the *stripped* string, not the original argument. -/
def clean_date (s : String) : String :=
  let base := stripBoiler s.toList
  let isPm := containsL base "오후".toList
  let core := stripMeridiem base
  match parseKDate core with
  | none => String.mk core
  | some p =>
    if isPm && (p.hour != 12) then
      (if p.hour + 12 ≤ 23 then formatDT { p with hour := p.hour + 12 }
       else String.mk core)
    else if !isPm && (p.hour == 12) then formatDT { p with hour := 0 }
    else formatDT p

/-! ## Per-source day runner (`NewsCrawlerV4.process_day_press`)

The browser and database are abstracted as a `DayEnv`: the listing walk for
the one (source, date) pair under consideration (`none` when the listing
container never materializes within the bounded wait, line 237), the initial
dedup-index contents, which dedup lookups raise, the outcome of field
extraction per URL, and the sink outcome per insert.  The runner's mutable
locals (`session_crawled_links`, `inserted_count`, `stop_press`) become a
`DayState`; two extra fields record which URLs were looked up in the dedup
index and which were opened for extraction, purely as observers. -/

/-- The article fields `extract_article_info` returns besides the URL
(the returned dict's `링크` is always the input URL itself, line 221). -/
structure ArticleInfo where
  ndate : String
  title : String
  content : String
deriving DecidableEq

/-- Outcome of the SQL `INSERT` issued by `insert_article`. -/
inductive SinkOutcome where
  | ok
  | dupKey
  | otherErr
deriving DecidableEq

/-- Environment of one `process_day_press` call. `listing` is the sequence of
listing pages the pagination walk would traverse for this (source, date):
`none` models the page-1 `TimeoutException` (listing container absent), and
each inner list is one page's collected hrefs.  `dbErr url` says whether the
`SELECT` in `is_link_in_db` raises for that URL; `dbInit url` is the durable
store's content at run start; `extract url` is what `extract_article_info`
returns; `sink url` is the outcome of the `INSERT` for that URL. -/
structure DayEnv where
  listing : Option (List (List String))
  dbInit : String → Bool
  dbErr : String → Bool
  extract : String → Option ArticleInfo
  sink : String → SinkOutcome

/-- Mutable state of one `process_day_press` call, plus the run's effect on
the durable store (`inserted`) and two observer traces. -/
structure DayState where
  session : List String
  inserted : List String
  count : Nat
  stopped : Bool
  dbChecked : List String
  extracted : List String
deriving DecidableEq

/-- State at the top of `process_day_press`: empty session cache
(`session_crawled_links = set()`), zero inserted count, no stop verdict. -/
def initDayState : DayState :=
  ⟨[], [], 0, false, [], []⟩

/-- The listing-level vertical filter (line 278):
`"entertain.naver.com" in url or "sports.naver.com" in url`. -/
def excludedUrl (url : String) : Bool :=
  strContains url "entertain.naver.com" || strContains url "sports.naver.com"

/-- `NewsCrawlerV4.is_link_in_db` (lines 118-128): query the durable store;
any exception from the query is caught and reported as `False`
("not present").  The live store is the initial contents plus this run's
successful inserts. -/
def is_link_in_db (env : DayEnv) (st : DayState) (url : String) : Bool :=
  if env.dbErr url then false
  else env.dbInit url || st.inserted.contains url

/-- `NewsCrawlerV4.insert_article` (lines 130-155): issue the `INSERT`; on
success the row (keyed by its link) is durably stored; any exception
— duplicate key or otherwise — is swallowed (`except Exception: pass`) and
the store is unchanged.  (The function also pre-parses the record's date
string into `dt_val`; that only affects the stored `NDATE` value, never
control flow, and is elided here.) -/
def insert_article (env : DayEnv) (st : DayState) (link : String) : DayState :=
  match env.sink link with
  | .ok => { st with inserted := st.inserted ++ [link] }
  | .dupKey => st
  | .otherErr => st

/-- One iteration of the reference loop of `process_day_press`
(lines 277-316): vertical filter, session-cache check, dedup-index check
(skip in gap-filling mode, stop verdict in incremental mode), then
extraction; on extraction success the insert is attempted, the counter is
incremented and the URL enters the session cache (lines 309-312) whether or
not the insert succeeded. -/
def stepRef (env : DayEnv) (limitSet : Bool) (st : DayState) (url : String) : DayState :=
  if excludedUrl url then st
  else if st.session.contains url then st
  else
    let st1 := { st with dbChecked := st.dbChecked ++ [url] }
    if is_link_in_db env st url then
      if limitSet then st1
      else { st1 with stopped := true }
    else
      let st2 := { st1 with extracted := st1.extracted ++ [url] }
      match env.extract url with
      | none => st2
      | some _ =>
        let st3 := insert_article env st2 url
        { st3 with count := st3.count + 1, session := st3.session ++ [url] }

/-- The `for url in article_urls` loop: the `break` on the stop verdict means
no later URL of the page is evaluated once the verdict is set. -/
def processRefs (env : DayEnv) (limitSet : Bool) : DayState → List String → DayState
  | st, [] => st
  | st, url :: rest =>
    if st.stopped then st
    else processRefs env limitSet (stepRef env limitSet st url) rest

/-- The pagination loop (`while True`, lines 248-347): a page with no
collected references ends the walk (`if not article_urls: break`); after a
page, the walk ends if the stop verdict was set, else it advances to the
next page; running out of pages (no next-page control) ends the walk. -/
def walkPages (env : DayEnv) (limitSet : Bool) : DayState → List (List String) → DayState
  | st, [] => st
  | st, page :: rest =>
    if page.isEmpty then st
    else
      let st1 := processRefs env limitSet st page
      if st1.stopped then st1
      else walkPages env limitSet st1 rest

/-- `NewsCrawlerV4.process_day_press` (lines 227-349), full final state.
If the page-1 listing container never materializes (`TimeoutException`,
lines 233-239) the runner returns `True, 0` at once. -/
def process_day_press_full (env : DayEnv) (limitSet : Bool) : DayState :=
  match env.listing with
  | none => { initDayState with stopped := true }
  | some pages => walkPages env limitSet initDayState pages

/-- The `(stop_press, inserted_count)` pair `process_day_press` returns. -/
def process_day_press (env : DayEnv) (limitSet : Bool) : Bool × Nat :=
  let st := process_day_press_full env limitSet
  (st.stopped, st.count)

/-! ## Orchestrator (`NewsCrawlerV4.run`, lines 351-400)

Dates are days counted from `datetime.min` (the smallest value Python's
`datetime` represents), so the cursor is a `Nat` that the loop decrements;
decrementing past `datetime.min` raises `OverflowError`, which the
`except Exception` at the orchestrator boundary catches — modelled as the
`dateUnderflow` stop reason.  A source is a (press name, oid) pair as in
`TARGET_PRESS_DICT.items()`. -/

/-- A (press name, oid) pair from the configured press dict. -/
abbrev Src := String × String

/-- Environment of a whole run: the day environment for each source and
date. -/
structure RunEnv where
  day : Src → Nat → DayEnv

/-- Whether `process_day_press` for this source and date reports the stop
verdict.  Gap-filling mode is active exactly when a floor date is
configured (`self.limit_dt`). -/
def stopsOn (env : RunEnv) (limit : Option Nat) (d : Nat) (s : Src) : Bool :=
  (process_day_press (env.day s d) limit.isSome).1

/-- One outer iteration's bookkeeping (lines 377-390): collect the sources
whose day verdict was the stop signal into `finished_targets`, then remove
each of them from the active list (`active_targets.remove(ft)` removes the
first occurrence). -/
def stepActive (env : RunEnv) (limit : Option Nat) (d : Nat) (active : List Src) : List Src :=
  let finished := active.filter (fun s => stopsOn env limit d s)
  finished.foldl (fun acc ft => acc.erase ft) active

/-- The date-limit check (lines 369-373): with a floor configured, a cursor
strictly older than the floor ends the whole run. -/
def limitCrossed (limit : Option Nat) (d : Nat) : Bool :=
  match limit with
  | some f => decide (d < f)
  | none => false

/-- Why the orchestrator loop ended. -/
inductive StopReason where
  | activeExhausted
  | floorCrossed
  | dateUnderflow
deriving DecidableEq

/-- Final state of a run: remaining active sources, final cursor value,
number of outer iterations executed, and why the loop ended. -/
structure RunResult where
  active : List Src
  finalDate : Nat
  iters : Nat
  reason : StopReason
deriving DecidableEq

/-- The orchestrator loop of `NewsCrawlerV4.run`: while sources remain
active, check the floor date, run every active source for the cursor date,
retire the stopped ones, and move the cursor one day into the past.  At
cursor 0 (= `datetime.min`) the decrement raises `OverflowError`, caught at
the orchestrator boundary (`except Exception`, line 397), ending the run. -/
def runLoop (env : RunEnv) (limit : Option Nat) : Nat → List Src → RunResult
  | 0, active =>
    if active.isEmpty then ⟨active, 0, 0, .activeExhausted⟩
    else if limitCrossed limit 0 then ⟨active, 0, 0, .floorCrossed⟩
    else ⟨stepActive env limit 0 active, 0, 1, .dateUnderflow⟩
  | d + 1, active =>
    if active.isEmpty then ⟨active, d + 1, 0, .activeExhausted⟩
    else if limitCrossed limit (d + 1) then ⟨active, d + 1, 0, .floorCrossed⟩
    else
      let r := runLoop env limit d (stepActive env limit (d + 1) active)
      { r with iters := r.iters + 1 }

/-- The sequence of (active list, cursor date) pairs at the top of each
executed outer iteration. -/
def runTrace (env : RunEnv) (limit : Option Nat) : Nat → List Src → List (List Src × Nat)
  | 0, active =>
    if active.isEmpty || limitCrossed limit 0 then []
    else [(active, 0)]
  | d + 1, active =>
    if active.isEmpty || limitCrossed limit (d + 1) then []
    else (active, d + 1) :: runTrace env limit d (stepActive env limit (d + 1) active)

/-! ## Basic lemmas about the reference loop -/

theorem processRefs_of_stopped (env : DayEnv) (b : Bool) (st : DayState)
    (l : List String) (h : st.stopped = true) : processRefs env b st l = st := by
  cases l <;> simp [processRefs, h]

theorem processRefs_append (env : DayEnv) (b : Bool) (st : DayState) (xs ys : List String) :
    processRefs env b st (xs ++ ys) = processRefs env b (processRefs env b st xs) ys := by
  induction xs generalizing st with
  | nil => simp [processRefs]
  | cons u rest ih =>
    by_cases h : st.stopped
    · simp [processRefs, h, processRefs_of_stopped]
    · simp only [List.cons_append, processRefs, h, Bool.false_eq_true, if_false]
      exact ih _

theorem stepRef_excluded (env : DayEnv) (b : Bool) (st : DayState) (url : String)
    (h : excludedUrl url = true) : stepRef env b st url = st := by
  simp [stepRef, h]

theorem stepRef_session_hit (env : DayEnv) (b : Bool) (st : DayState) (url : String)
    (h1 : excludedUrl url = false) (h2 : url ∈ st.session) :
    stepRef env b st url = st := by
  simp [stepRef, h1, h2]

theorem stepRef_dup_incremental (env : DayEnv) (st : DayState) (url : String)
    (h1 : excludedUrl url = false) (h2 : url ∉ st.session)
    (h3 : is_link_in_db env st url = true) :
    stepRef env false st url =
      { st with stopped := true, dbChecked := st.dbChecked ++ [url] } := by
  simp [stepRef, h1, h2, h3]

theorem stepRef_dup_gap (env : DayEnv) (st : DayState) (url : String)
    (h1 : excludedUrl url = false) (h2 : url ∉ st.session)
    (h3 : is_link_in_db env st url = true) :
    stepRef env true st url = { st with dbChecked := st.dbChecked ++ [url] } := by
  simp [stepRef, h1, h2, h3]

theorem stepRef_fresh_extract_fail (env : DayEnv) (b : Bool) (st : DayState) (url : String)
    (h1 : excludedUrl url = false) (h2 : url ∉ st.session)
    (h3 : is_link_in_db env st url = false) (h4 : env.extract url = none) :
    stepRef env b st url =
      { st with dbChecked := st.dbChecked ++ [url], extracted := st.extracted ++ [url] } := by
  simp [stepRef, h1, h2, h3, h4]

theorem stepRef_fresh_sink_ok (env : DayEnv) (b : Bool) (st : DayState) (url : String)
    (info : ArticleInfo) (h1 : excludedUrl url = false) (h2 : url ∉ st.session)
    (h3 : is_link_in_db env st url = false) (h4 : env.extract url = some info)
    (h5 : env.sink url = .ok) :
    stepRef env b st url =
      { st with dbChecked := st.dbChecked ++ [url], extracted := st.extracted ++ [url],
                inserted := st.inserted ++ [url], count := st.count + 1,
                session := st.session ++ [url] } := by
  simp [stepRef, insert_article, h1, h2, h3, h4, h5]

theorem stepRef_fresh_sink_fail (env : DayEnv) (b : Bool) (st : DayState) (url : String)
    (info : ArticleInfo) (h1 : excludedUrl url = false) (h2 : url ∉ st.session)
    (h3 : is_link_in_db env st url = false) (h4 : env.extract url = some info)
    (h5 : env.sink url ≠ .ok) :
    stepRef env b st url =
      { st with dbChecked := st.dbChecked ++ [url], extracted := st.extracted ++ [url],
                count := st.count + 1, session := st.session ++ [url] } := by
  cases h : env.sink url with
  | ok => exact absurd h h5
  | dupKey => simp [stepRef, insert_article, h1, h2, h3, h4, h]
  | otherErr => simp [stepRef, insert_article, h1, h2, h3, h4, h]

theorem walkPages_stop_first (env : DayEnv) (b : Bool) (st : DayState)
    (page : List String) (rest : List (List String)) (hne : page ≠ [])
    (h : (processRefs env b st page).stopped = true) :
    walkPages env b st (page :: rest) = processRefs env b st page := by
  simp [walkPages, hne, h]

theorem walkPages_append (env : DayEnv) (b : Bool) (front pages : List (List String)) :
    ∀ st : DayState, (∀ p ∈ front, p ≠ []) →
    (walkPages env b st front).stopped = false →
    walkPages env b st (front ++ pages) = walkPages env b (walkPages env b st front) pages := by
  induction front with
  | nil => intro st _ _; rfl
  | cons page fr ih =>
    intro st hne hstop
    have hpne : page ≠ [] := hne page (by simp)
    have hpe : page.isEmpty = false := by simpa using hpne
    by_cases hs1 : (processRefs env b st page).stopped = true
    · rw [walkPages_stop_first env b st page fr hpne hs1] at hstop
      rw [hs1] at hstop
      exact absurd hstop (by simp)
    · have hs1f : (processRefs env b st page).stopped = false := by simpa using hs1
      have hstop2 : (walkPages env b (processRefs env b st page) fr).stopped = false := by
        simp only [walkPages, hpe, Bool.false_eq_true, if_false, hs1f] at hstop
        exact hstop
      simp only [List.cons_append, walkPages, hpe, Bool.false_eq_true, if_false, hs1f]
      exact ih (processRefs env b st page) (fun p hp => hne p (List.mem_cons_of_mem page hp)) hstop2

/-! ## Claim C1 -/

/-- C1: in incremental mode (no floor date), for a run whose pagination
walk reaches any page (`front` earlier pages, each non-empty — an empty
page would have ended the walk — and none having stopped the run), when a
non-excluded reference `r` on that page, not in the session cache and not
preceded on the page by a stopping reference, hits the dedup index, the day
runner's final state is exactly the state accumulated over the earlier
pages and the page prefix `xs`, with the stop verdict set and `r` appended
to the dedup-lookup trace — so the verdict is `stopped = true`, the
inserted count is exactly the count of the records ingested before `r`,
and no later reference of that page (`ys`) nor any later page (`rest`) is
ever looked up or extracted. -/
theorem C1_incremental_stops_at_first_duplicate (env : DayEnv)
    (front : List (List String)) (xs ys : List String)
    (r : String) (rest : List (List String))
    (hl : env.listing = some (front ++ (xs ++ r :: ys) :: rest))
    (hfront : ∀ p ∈ front, p ≠ [])
    (hnostop : (walkPages env false initDayState front).stopped = false)
    (hxs : (processRefs env false (walkPages env false initDayState front) xs).stopped = false)
    (hex : excludedUrl r = false)
    (hses : r ∉ (processRefs env false (walkPages env false initDayState front) xs).session)
    (hdb : is_link_in_db env
      (processRefs env false (walkPages env false initDayState front) xs) r = true) :
    process_day_press_full env false =
      { processRefs env false (walkPages env false initDayState front) xs with
        stopped := true,
        dbChecked := (processRefs env false
          (walkPages env false initDayState front) xs).dbChecked ++ [r] } := by
  have hpage : (xs ++ r :: ys) ≠ [] := by simp
  have hcons : processRefs env false
      (processRefs env false (walkPages env false initDayState front) xs) (r :: ys) =
      { processRefs env false (walkPages env false initDayState front) xs with
        stopped := true,
        dbChecked := (processRefs env false
          (walkPages env false initDayState front) xs).dbChecked ++ [r] } := by
    simp only [processRefs, hxs, Bool.false_eq_true, if_false]
    rw [stepRef_dup_incremental env _ r hex hses hdb]
    exact processRefs_of_stopped _ _ _ _ rfl
  have hfull : processRefs env false (walkPages env false initDayState front) (xs ++ r :: ys) =
      { processRefs env false (walkPages env false initDayState front) xs with
        stopped := true,
        dbChecked := (processRefs env false
          (walkPages env false initDayState front) xs).dbChecked ++ [r] } := by
    rw [processRefs_append]
    exact hcons
  simp only [process_day_press_full, hl]
  rw [walkPages_append env false front ((xs ++ r :: ys) :: rest) initDayState hfront hnostop]
  rw [walkPages_stop_first env false _ _ rest hpage (by rw [hfull])]
  exact hfull

/-- A synthetic (source, date) run: one listing page of five references,
reference #3 already in the durable store, extraction and sink succeeding. -/
def envC1 : DayEnv :=
  { listing := some [["u1", "u2", "u3", "u4", "u5"]],
    dbInit := fun u => u == "u3",
    dbErr := fun _ => false,
    extract := fun _ => some ⟨"2025-12-15 13:23:00", "t", "c"⟩,
    sink := fun _ => .ok }

/-- A two-page run whose first duplicate is the first reference of page 2,
after a clean first page of two fresh references. -/
def envC1b : DayEnv :=
  { listing := some [["v1", "v2"], ["v3", "v4"]],
    dbInit := fun u => u == "v3",
    dbErr := fun _ => false,
    extract := fun _ => some ⟨"2025-12-15 13:23:00", "t", "c"⟩,
    sink := fun _ => .ok }

/-- Witness for C1, instantiating the theorem at both shapes it covers.
First-page instance (`front = []`): on the five-reference listing with
reference #3 a duplicate and #1-#2 extracting successfully, the runner
returns `stopped = true` with exactly 2 records ingested, having looked up
only `u1 u2 u3` and extracted only `u1 u2`.  Later-page instance
(`front = [page 1]`): with the duplicate as reference #1 of page 2 after a
clean page 1, the runner returns `stopped = true` with the 2 earlier-page
records ingested, and reference `v4` and no later page are ever touched. -/
theorem C1_incremental_stops_at_first_duplicate_witness :
    ((processRefs envC1 false (walkPages envC1 false initDayState []) ["u1", "u2"]).stopped
        = false)
    ∧ excludedUrl "u3" = false
    ∧ ("u3" ∉ (processRefs envC1 false (walkPages envC1 false initDayState []) ["u1", "u2"]).session)
    ∧ is_link_in_db envC1
        (processRefs envC1 false (walkPages envC1 false initDayState []) ["u1", "u2"]) "u3" = true
    ∧ process_day_press_full envC1 false =
        { processRefs envC1 false (walkPages envC1 false initDayState []) ["u1", "u2"] with
          stopped := true,
          dbChecked := (processRefs envC1 false
            (walkPages envC1 false initDayState []) ["u1", "u2"]).dbChecked ++ ["u3"] }
    ∧ process_day_press envC1 false = (true, 2)
    ∧ (process_day_press_full envC1 false).extracted = ["u1", "u2"]
    ∧ (process_day_press_full envC1 false).dbChecked = ["u1", "u2", "u3"]
    ∧ ((walkPages envC1b false initDayState [["v1", "v2"]]).stopped = false)
    ∧ process_day_press_full envC1b false =
        { processRefs envC1b false (walkPages envC1b false initDayState [["v1", "v2"]]) [] with
          stopped := true,
          dbChecked := (processRefs envC1b false
            (walkPages envC1b false initDayState [["v1", "v2"]]) []).dbChecked ++ ["v3"] }
    ∧ process_day_press envC1b false = (true, 2)
    ∧ (process_day_press_full envC1b false).extracted = ["v1", "v2"]
    ∧ (process_day_press_full envC1b false).dbChecked = ["v1", "v2", "v3"] :=
  ⟨by decide, by decide, by decide, by decide,
   C1_incremental_stops_at_first_duplicate envC1 [] ["u1", "u2"] ["u4", "u5"] "u3" []
     rfl (by decide) (by decide) (by decide) (by decide) (by decide) (by decide),
   by decide, by decide, by decide,
   by decide,
   C1_incremental_stops_at_first_duplicate envC1b [["v1", "v2"]] [] ["v4"] "v3" []
     rfl (by decide) (by decide) (by decide) (by decide) (by decide) (by decide),
   by decide, by decide, by decide⟩

/-! ## Claim C4 -/

/-- Sink environment whose single insert succeeds. -/
def envC4ok : DayEnv :=
  { listing := some [["s1"]],
    dbInit := fun _ => false, dbErr := fun _ => false,
    extract := fun _ => some ⟨"d", "t", "c"⟩,
    sink := fun _ => .ok }

/-- Same run, but the insert fails with a non-duplicate-key error. -/
def envC4err : DayEnv :=
  { listing := some [["s1"]],
    dbInit := fun _ => false, dbErr := fun _ => false,
    extract := fun _ => some ⟨"d", "t", "c"⟩,
    sink := fun _ => .otherErr }

/-- C4 counterexample: a sink failure other than duplicate-key is NOT
surfaced to the caller of the day's run — `insert_article` swallows every
exception (`except Exception: pass`), so the day verdict of the failing run
is identical to that of the fully successful run, and the failed record is
even counted in `inserted_count`, while the durable store stays empty. -/
theorem C4_sink_failure_counterexample :
    envC4err.sink "s1" = .otherErr
    ∧ process_day_press envC4err false = process_day_press envC4ok false
    ∧ process_day_press envC4err false = (false, 1)
    ∧ (process_day_press_full envC4err false).inserted = []
    ∧ (process_day_press_full envC4ok false).inserted = ["s1"] := by
  decide

/-- C4 (amended): when the sink write for a fresh reference fails with an
error other than duplicate-key, the failure is swallowed silently (the
state equation shows `stopped` and `inserted` unchanged — nothing is
surfaced, the URL is not recorded in the durable dedup store, and the loop
continues with the next reference), yet the counter is still incremented
and the URL still enters the session cache; and on any later state whose
session cache and store lack the URL (in particular a subsequent run's),
the reference is attempted again (passed to extraction). -/
theorem C4_sink_failure_swallowed (env : DayEnv) (b : Bool) (st : DayState)
    (url : String) (info : ArticleInfo)
    (hex : excludedUrl url = false) (hses : url ∉ st.session)
    (hdb : is_link_in_db env st url = false) (hextract : env.extract url = some info)
    (hsink : env.sink url = .otherErr) :
    stepRef env b st url =
      { st with dbChecked := st.dbChecked ++ [url], extracted := st.extracted ++ [url],
                count := st.count + 1, session := st.session ++ [url] } := by
  exact stepRef_fresh_sink_fail env b st url info hex hses hdb hextract (by simp [hsink])

/-- Witness for C4 (amended): at the failing-sink run, the hypotheses hold
and the step equation produced by the theorem holds. -/
theorem C4_sink_failure_swallowed_witness :
    excludedUrl "s1" = false
    ∧ ("s1" ∉ initDayState.session)
    ∧ is_link_in_db envC4err initDayState "s1" = false
    ∧ envC4err.extract "s1" = some ⟨"d", "t", "c"⟩
    ∧ envC4err.sink "s1" = .otherErr
    ∧ stepRef envC4err false initDayState "s1" =
        { initDayState with dbChecked := initDayState.dbChecked ++ ["s1"],
                            extracted := initDayState.extracted ++ ["s1"],
                            count := initDayState.count + 1,
                            session := initDayState.session ++ ["s1"] } :=
  ⟨by decide, by decide, by decide, by decide, by decide,
   C4_sink_failure_swallowed envC4err false initDayState "s1" ⟨"d", "t", "c"⟩
     (by decide) (by decide) (by decide) (by decide) (by decide)⟩

/-! ## Claim C5 -/

/-- C5: within one (source, date) run the per-reference checks happen in
order — excluded-vertical filter first (an excluded reference leaves the
state untouched: no session-cache consultation, no dedup lookup), session
cache second (a session-cached reference leaves the state untouched: the
dedup index is never queried — `dbChecked` unchanged — and the stop verdict
can never be set by it, in either mode, even if the URL is by then in the
store), dedup index third; a successfully ingested URL enters the session
cache; and the session cache starts empty for each new (source, date)
pair. -/
theorem C5_check_order_session_shield (env : DayEnv) (b : Bool) (st : DayState) (url : String) :
    (excludedUrl url = true → stepRef env b st url = st)
    ∧ (excludedUrl url = false → url ∈ st.session → stepRef env b st url = st)
    ∧ (∀ info : ArticleInfo, excludedUrl url = false → url ∉ st.session →
        is_link_in_db env st url = false → env.extract url = some info →
        url ∈ (stepRef env b st url).session)
    ∧ initDayState.session = [] := by
  refine ⟨fun h => stepRef_excluded env b st url h,
          fun h1 h2 => stepRef_session_hit env b st url h1 h2, ?_, rfl⟩
  intro info h1 h2 h3 h4
  by_cases h5 : env.sink url = .ok
  · rw [stepRef_fresh_sink_ok env b st url info h1 h2 h3 h4 h5]
    simp
  · rw [stepRef_fresh_sink_fail env b st url info h1 h2 h3 h4 h5]
    simp

/-- A (source, date) run whose listing re-renders the same reference on the
next pagination step. -/
def envC5 : DayEnv :=
  { listing := some [["w1"], ["w1"]],
    dbInit := fun _ => false, dbErr := fun _ => false,
    extract := fun _ => some ⟨"d", "t", "c"⟩,
    sink := fun _ => .ok }

/-- Witness for C5: after page 1 ingests `w1`, the page-2 re-render of `w1`
is skipped via the session cache (the step leaves the state untouched), so
the whole day run performs exactly one dedup lookup, ingests one record and
does not stop — although `w1` is by then in the live store, which would
have set the incremental stop verdict had the lookup been reached. -/
theorem C5_check_order_session_shield_witness :
    excludedUrl "w1" = false
    ∧ ("w1" ∈ (⟨["w1"], ["w1"], 1, false, ["w1"], ["w1"]⟩ : DayState).session)
    ∧ is_link_in_db envC5 ⟨["w1"], ["w1"], 1, false, ["w1"], ["w1"]⟩ "w1" = true
    ∧ stepRef envC5 false (⟨["w1"], ["w1"], 1, false, ["w1"], ["w1"]⟩ : DayState) "w1" =
        ⟨["w1"], ["w1"], 1, false, ["w1"], ["w1"]⟩
    ∧ process_day_press envC5 false = (false, 1)
    ∧ (process_day_press_full envC5 false).dbChecked = ["w1"] :=
  ⟨by decide, by decide, by decide,
   (C5_check_order_session_shield envC5 false ⟨["w1"], ["w1"], 1, false, ["w1"], ["w1"]⟩ "w1").2.1
     (by decide) (by decide),
   by decide, by decide⟩

/-! ## Claim C6 -/

/-- C6: when the page-1 listing container never materializes within the
bounded wait, the day runner returns the verdict `(stopped = true,
inserted = 0)` — the final state is the initial state with only the stop
verdict set (nothing looked up, nothing extracted, nothing inserted), and
no error escapes to the orchestrator loop. -/
theorem C6_listing_timeout_retires_source (env : DayEnv) (b : Bool)
    (h : env.listing = none) :
    process_day_press_full env b = { initDayState with stopped := true }
    ∧ process_day_press env b = (true, 0) := by
  refine ⟨by simp [process_day_press_full, h], ?_⟩
  simp [process_day_press, process_day_press_full, h, initDayState]

/-- A (source, date) pair whose listing container never appears. -/
def envC6 : DayEnv :=
  { listing := none,
    dbInit := fun _ => false, dbErr := fun _ => false,
    extract := fun _ => none,
    sink := fun _ => .ok }

/-- Witness for C6 at the concrete timed-out listing. -/
theorem C6_listing_timeout_retires_source_witness :
    envC6.listing = none
    ∧ process_day_press envC6 false = (true, 0) :=
  ⟨rfl, (C6_listing_timeout_retires_source envC6 false rfl).2⟩

/-! ## Claim C9 -/

/-- C9: when the dedup-index lookup itself raises, `is_link_in_db` reports
"not present" (`False`), so in incremental mode the stop verdict is not
set from that reference; the already-known article is re-extracted and
re-inserted, the duplicate-key failure of that insert is swallowed
(durable store unchanged), and the reference is still counted and added to
the session cache. -/
theorem C9_lookup_failure_reports_absent (env : DayEnv) (st : DayState) (url : String)
    (info : ArticleInfo)
    (herr : env.dbErr url = true) (hex : excludedUrl url = false)
    (hses : url ∉ st.session) (hextract : env.extract url = some info)
    (hsink : env.sink url = .dupKey) :
    is_link_in_db env st url = false
    ∧ stepRef env false st url =
      { st with dbChecked := st.dbChecked ++ [url], extracted := st.extracted ++ [url],
                count := st.count + 1, session := st.session ++ [url] } := by
  have hdb : is_link_in_db env st url = false := by simp [is_link_in_db, herr]
  exact ⟨hdb,
    stepRef_fresh_sink_fail env false st url info hex hses hdb hextract (by simp [hsink])⟩

/-- A frontier reference that is genuinely in the durable store, whose
lookup raises and whose re-insert therefore hits the duplicate key. -/
def envC9 : DayEnv :=
  { listing := some [["k1"]],
    dbInit := fun _ => true, dbErr := fun _ => true,
    extract := fun _ => some ⟨"d", "t", "c"⟩,
    sink := fun _ => .dupKey }

/-- Witness for C9: at the failing-lookup frontier the hypotheses hold, the
lookup reports absent, the step re-extracts and counts the article without
setting the stop verdict, and the whole day run ends `(false, 1)`. -/
theorem C9_lookup_failure_reports_absent_witness :
    envC9.dbErr "k1" = true
    ∧ excludedUrl "k1" = false
    ∧ ("k1" ∉ initDayState.session)
    ∧ envC9.extract "k1" = some ⟨"d", "t", "c"⟩
    ∧ envC9.sink "k1" = .dupKey
    ∧ is_link_in_db envC9 initDayState "k1" = false
    ∧ stepRef envC9 false initDayState "k1" =
        { initDayState with dbChecked := initDayState.dbChecked ++ ["k1"],
                            extracted := initDayState.extracted ++ ["k1"],
                            count := initDayState.count + 1,
                            session := initDayState.session ++ ["k1"] }
    ∧ process_day_press envC9 false = (false, 1) :=
  ⟨by decide, by decide, by decide, by decide, by decide,
   (C9_lookup_failure_reports_absent envC9 initDayState "k1" ⟨"d", "t", "c"⟩
     (by decide) (by decide) (by decide) (by decide) (by decide)).1,
   (C9_lookup_failure_reports_absent envC9 initDayState "k1" ⟨"d", "t", "c"⟩
     (by decide) (by decide) (by decide) (by decide) (by decide)).2,
   by decide⟩

/-! ## Claim C3 -/

/-- C3 counterexample: the claim says an unparseable input comes back as
"that exact string unchanged", but `clean_date` performs the boilerplate
strip *before* the `try` block can fail, and the bare `except` returns the
already-stripped value: the unparseable input "입력 hello" comes back as
"hello". -/
theorem C3_clean_date_counterexample :
    parseKDate (stripMeridiem (stripBoiler "입력 hello".toList)) = none
    ∧ clean_date "입력 hello" = "hello"
    ∧ clean_date "입력 hello" ≠ "입력 hello" := by
  decide

/-- C3 (amended): the two round-trip examples normalize as stated
("2025.12.15. 오후 1:23" to "2025-12-15 13:23:00" and
"2025.12.15. 오전 12:05" to "2025-12-15 00:05:00"), and for every input the
fixed template cannot parse, `clean_date` returns — without raising — the
input with the boilerplate markers ("기사입력", "입력") and meridiem markers
("오전", "오후") removed and surrounding whitespace trimmed; for an input
containing none of those markers and no surrounding whitespace this is the
exact input, but not in general. -/
theorem C3_clean_date_normalization :
    clean_date "2025.12.15. 오후 1:23" = "2025-12-15 13:23:00"
    ∧ clean_date "2025.12.15. 오전 12:05" = "2025-12-15 00:05:00"
    ∧ ∀ s : String, parseKDate (stripMeridiem (stripBoiler s.toList)) = none →
        clean_date s = String.mk (stripMeridiem (stripBoiler s.toList)) := by
  refine ⟨by decide, by decide, ?_⟩
  intro s h
  simp only [clean_date, h]

/-- Witness for C3 (amended) at an unparseable marker-free input, which the
function returns unchanged. -/
theorem C3_clean_date_normalization_witness :
    parseKDate (stripMeridiem (stripBoiler "xyz".toList)) = none
    ∧ clean_date "xyz" = String.mk (stripMeridiem (stripBoiler "xyz".toList))
    ∧ String.mk (stripMeridiem (stripBoiler "xyz".toList)) = "xyz" :=
  ⟨by decide, C3_clean_date_normalization.2.2 "xyz" (by decide), by decide⟩

/-! ## Claim C10 -/

/-- C10: a raw date string that parses under the fixed template but carries
no meridiem marker at all is handled by the AM-equivalent branch
(`not is_pm and dt.hour == 12` rewrites the hour to 0), so a marker-free
hour-12 input has its hour rewritten to 0. -/
theorem C10_marker_free_noon_becomes_zero (s : String) (y mo da mi : Nat)
    (hpm : containsL (stripBoiler s.toList) "오후".toList = false)
    (hp : parseKDate (stripMeridiem (stripBoiler s.toList)) = some ⟨y, mo, da, 12, mi⟩) :
    clean_date s = formatDT ⟨y, mo, da, 0, mi⟩ := by
  simp only [clean_date, hp, hpm]
  simp

/-- Witness for C10: "2025.12.15. 12:30" (no marker, hour 12) normalizes to
"2025-12-15 00:30:00", not 12:30. -/
theorem C10_marker_free_noon_becomes_zero_witness :
    containsL (stripBoiler "2025.12.15. 12:30".toList) "오후".toList = false
    ∧ parseKDate (stripMeridiem (stripBoiler "2025.12.15. 12:30".toList))
        = some ⟨2025, 12, 15, 12, 30⟩
    ∧ clean_date "2025.12.15. 12:30" = formatDT ⟨2025, 12, 15, 0, 30⟩
    ∧ formatDT ⟨2025, 12, 15, 0, 30⟩ = "2025-12-15 00:30:00" :=
  ⟨by decide, by decide,
   C10_marker_free_noon_becomes_zero "2025.12.15. 12:30" 2025 12 15 30 (by decide) (by decide),
   by decide⟩

/-! ## Gap-filling mode: no reference ever sets the stop verdict -/

theorem stepRef_gap_keeps_stopped (env : DayEnv) (st : DayState) (url : String) :
    (stepRef env true st url).stopped = st.stopped := by
  by_cases h1 : excludedUrl url = true
  · rw [stepRef_excluded env true st url h1]
  · by_cases h2 : url ∈ st.session
    · rw [stepRef_session_hit env true st url (by simpa using h1) h2]
    · by_cases h3 : is_link_in_db env st url = true
      · rw [stepRef_dup_gap env st url (by simpa using h1) h2 h3]
      · cases h4 : env.extract url with
        | none =>
          rw [stepRef_fresh_extract_fail env true st url (by simpa using h1) h2
            (by simpa using h3) h4]
        | some i =>
          by_cases h5 : env.sink url = .ok
          · rw [stepRef_fresh_sink_ok env true st url i (by simpa using h1) h2
              (by simpa using h3) h4 h5]
          · rw [stepRef_fresh_sink_fail env true st url i (by simpa using h1) h2
              (by simpa using h3) h4 h5]

theorem processRefs_gap_keeps_stopped (env : DayEnv) (st : DayState) (l : List String) :
    (processRefs env true st l).stopped = st.stopped := by
  induction l generalizing st with
  | nil => rfl
  | cons u rest ih =>
    by_cases h : st.stopped = true
    · simp [processRefs, h]
    · simp only [processRefs, h, Bool.false_eq_true, if_false]
      rw [ih, stepRef_gap_keeps_stopped]
      simpa using h

theorem walkPages_gap_keeps_stopped (env : DayEnv) (st : DayState)
    (pages : List (List String)) :
    (walkPages env true st pages).stopped = st.stopped := by
  induction pages generalizing st with
  | nil => rfl
  | cons page rest ih =>
    by_cases hp : page.isEmpty = true
    · simp [walkPages, hp]
    · simp only [walkPages, hp, Bool.false_eq_true, if_false]
      rw [apply_ite DayState.stopped, ih, processRefs_gap_keeps_stopped, ite_self]

theorem process_day_press_gap_no_stop (env : DayEnv) (pages : List (List String))
    (h : env.listing = some pages) :
    process_day_press env true = (false, (process_day_press_full env true).count) := by
  simp only [process_day_press, process_day_press_full, h]
  rw [walkPages_gap_keeps_stopped]
  rfl

theorem stopsOn_gap_false (env : RunEnv) (f : Nat) (d : Nat) (s : Src)
    (h : ((env.day s d).listing).isSome = true) :
    stopsOn env (some f) d s = false := by
  obtain ⟨pages, hp⟩ := Option.isSome_iff_exists.mp h
  simp only [stopsOn, Option.isSome_some]
  rw [process_day_press_gap_no_stop (env.day s d) pages hp]

theorem stepActive_of_no_stop (env : RunEnv) (limit : Option Nat) (d : Nat)
    (active : List Src) (h : ∀ s ∈ active, stopsOn env limit d s = false) :
    stepActive env limit d active = active := by
  unfold stepActive
  have hf : active.filter (fun s => stopsOn env limit d s) = [] := by
    rw [List.filter_eq_nil_iff]
    intro a ha
    simp [h a ha]
  rw [hf]
  rfl

theorem runTrace_gap_full (env : RunEnv) (f : Nat) :
    ∀ (d : Nat) (active : List Src), f ≤ d → active ≠ [] →
    (∀ s ∈ active, ∀ e : Nat, f ≤ e → e ≤ d → ((env.day s e).listing).isSome = true) →
    runTrace env (some f) d active = (List.range (d - f + 1)).map (fun i => (active, d - i)) := by
  intro d
  induction d with
  | zero =>
    intro active hfd hne hav
    have hf0 : f = 0 := Nat.le_zero.mp hfd
    subst hf0
    simp only [runTrace, limitCrossed]
    rw [if_neg]
    · simp
    · simp [hne]
  | succ d ih =>
    intro active hfd hne hav
    have hguard : (active.isEmpty || limitCrossed (some f) (d + 1)) = false := by
      simp [List.isEmpty_eq_false.mpr hne, limitCrossed, Nat.not_lt.mpr hfd]
    have hstep : stepActive env (some f) (d + 1) active = active := by
      apply stepActive_of_no_stop
      intro s hs
      exact stopsOn_gap_false env f (d + 1) s (hav s hs (d + 1) hfd (Nat.le_refl _))
    simp only [runTrace, hguard, Bool.false_eq_true, if_false, hstep]
    by_cases hfd2 : f ≤ d
    · rw [ih active hfd2 hne (fun s hs e he1 he2 => hav s hs e he1 (Nat.le_succ_of_le he2))]
      have harith : d + 1 - f + 1 = (d - f + 1) + 1 := by omega
      rw [harith]
      conv_rhs => rw [List.range_succ_eq_map, List.map_cons, List.map_map]
      congr 1
      apply List.map_congr_left
      intro i hi
      simp only [Function.comp_apply]
      have hsub : d + 1 - Nat.succ i = d - i := by omega
      rw [hsub]
    · have hf : f = d + 1 := by omega
      subst hf
      have hnil : runTrace env (some (d + 1)) d active = [] := by
        cases d with
        | zero => simp [runTrace, limitCrossed]
        | succ k => simp [runTrace, limitCrossed]
      rw [hnil]
      have h1 : d + 1 - (d + 1) + 1 = 1 := by omega
      rw [h1]
      rfl

/-! ## Claim C2 -/

/-- C2: in gap-filling mode (floor date configured) a reference found in
the dedup index is skipped without setting the stop verdict — no step of
the reference loop can change `stopped` at all, and the dedup hit leaves
the state untouched except for the lookup trace.  Consequently, whenever
the listings materialize for every active source on every day of the
window, the run visits every day from the start date `d` down to the floor
`f` with the full source list active throughout (the trace is exactly the
days `d, d-1, …, f`, each with the whole active list), however many
duplicates are interleaved; and at each step every non-excluded,
non-session-cached, non-duplicate reference is attempted (passed to
extraction). -/
theorem C2_gap_filling_never_stops_early (denv : DayEnv) (st : DayState) (url : String)
    (env : RunEnv) (f d : Nat) (active : List Src)
    (hfd : f ≤ d) (hne : active ≠ [])
    (hav : ∀ s ∈ active, ∀ e : Nat, f ≤ e → e ≤ d → ((env.day s e).listing).isSome = true) :
    ((stepRef denv true st url).stopped = st.stopped)
    ∧ (excludedUrl url = false → url ∉ st.session → is_link_in_db denv st url = true →
        stepRef denv true st url = { st with dbChecked := st.dbChecked ++ [url] })
    ∧ (excludedUrl url = false → url ∉ st.session → is_link_in_db denv st url = false →
        (stepRef denv true st url).extracted = st.extracted ++ [url])
    ∧ runTrace env (some f) d active
        = (List.range (d - f + 1)).map (fun i => (active, d - i)) := by
  refine ⟨stepRef_gap_keeps_stopped denv st url,
          fun h1 h2 h3 => stepRef_dup_gap denv st url h1 h2 h3, ?_,
          runTrace_gap_full env f d active hfd hne hav⟩
  intro h1 h2 h3
  cases h4 : denv.extract url with
  | none => rw [stepRef_fresh_extract_fail denv true st url h1 h2 h3 h4]
  | some i =>
    by_cases h5 : denv.sink url = .ok
    · rw [stepRef_fresh_sink_ok denv true st url i h1 h2 h3 h4 h5]
    · rw [stepRef_fresh_sink_fail denv true st url i h1 h2 h3 h4 h5]

/-- A day whose single listed reference is fresh. -/
def dayFresh : DayEnv :=
  { listing := some [["g1"]],
    dbInit := fun _ => false, dbErr := fun _ => false,
    extract := fun _ => some ⟨"d", "t", "c"⟩,
    sink := fun _ => .ok }

/-- A day whose single listed reference is already in the durable store. -/
def dayDup : DayEnv :=
  { listing := some [["g1"]],
    dbInit := fun _ => true, dbErr := fun _ => false,
    extract := fun _ => some ⟨"d", "t", "c"⟩,
    sink := fun _ => .dupKey }

/-- A gap-filling window with a duplicate interleaved on day 2. -/
def envC2 : RunEnv :=
  ⟨fun _ e => if e = 2 then dayDup else dayFresh⟩

/-- Witness for C2: with floor 1, start day 3 and a duplicate interleaved
on day 2, every hypothesis holds, the duplicate day reports no stop with
zero inserts, and the trace visits days 3, 2, 1 with the source active
throughout. -/
theorem C2_gap_filling_never_stops_early_witness :
    (1 ≤ 3 ∧ ([(("press", "009") : Src)] ≠ []))
    ∧ (stepRef dayDup true initDayState "g1").stopped = initDayState.stopped
    ∧ process_day_press dayDup true = (false, 0)
    ∧ runTrace envC2 (some 1) 3 [("press", "009")]
        = (List.range 3).map (fun i => ([(("press", "009") : Src)], 3 - i))
    ∧ runTrace envC2 (some 1) 3 [("press", "009")]
        = [([("press", "009")], 3), ([("press", "009")], 2), ([("press", "009")], 1)] :=
  ⟨⟨by omega, by decide⟩,
   (C2_gap_filling_never_stops_early dayDup initDayState "g1" envC2 1 3 [("press", "009")]
      (by omega) (by decide)
      (fun s hs e he1 he2 => by
        by_cases he : e = 2 <;> simp [envC2, dayDup, dayFresh, he])).1,
   by decide,
   (C2_gap_filling_never_stops_early dayDup initDayState "g1" envC2 1 3 [("press", "009")]
      (by omega) (by decide)
      (fun s hs e he1 he2 => by
        by_cases he : e = 2 <;> simp [envC2, dayDup, dayFresh, he])).2.2.2,
   by decide⟩

/-! ## Retirement bookkeeping: the erase-fold is a filter on duplicate-free lists -/

theorem foldl_erase_cons_of_ne (l : List Src) (a : Src) :
    ∀ t : List Src, (∀ x ∈ l, x ≠ a) →
    l.foldl (fun acc x => acc.erase x) (a :: t)
      = a :: l.foldl (fun acc x => acc.erase x) t := by
  induction l with
  | nil => intro t _; rfl
  | cons b bs ih =>
    intro t h
    simp only [List.foldl_cons]
    rw [List.erase_cons_tail (by simp [(h b (by simp)).symm])]
    exact ih (t.erase b) (fun x hx => h x (List.mem_cons_of_mem b hx))

theorem stepActive_eq_filter (env : RunEnv) (limit : Option Nat) (d : Nat) :
    ∀ active : List Src, active.Nodup →
    stepActive env limit d active = active.filter (fun s => !(stopsOn env limit d s)) := by
  intro active
  unfold stepActive
  induction active with
  | nil => intro h; rfl
  | cons a t ih =>
    intro h
    have ht : t.Nodup := (List.nodup_cons.mp h).2
    have ha : a ∉ t := (List.nodup_cons.mp h).1
    by_cases hp : stopsOn env limit d a = true
    · rw [List.filter_cons_of_pos hp, List.filter_cons_of_neg (by simp [hp])]
      simp only [List.foldl_cons, List.erase_cons_head]
      exact ih ht
    · rw [List.filter_cons_of_neg hp,
        List.filter_cons_of_pos (by simp; exact (Bool.not_eq_true _).mp hp)]
      rw [foldl_erase_cons_of_ne _ a t (fun x hx => fun e => ha (e ▸ List.mem_of_mem_filter hx))]
      rw [ih ht]

theorem runTrace_head (env : RunEnv) (limit : Option Nat) (d : Nat) (a : List Src)
    (e : List Src × Nat) (h : (runTrace env limit d a)[0]? = some e) : e = (a, d) := by
  cases d with
  | zero =>
    by_cases hc : (a.isEmpty || limitCrossed limit 0) = true
    · simp [runTrace, hc] at h
    · simp only [runTrace, hc, Bool.false_eq_true, if_false] at h
      simp at h
      exact h.symm
  | succ k =>
    by_cases hc : (a.isEmpty || limitCrossed limit (k + 1)) = true
    · simp [runTrace, hc] at h
    · simp only [runTrace, hc, Bool.false_eq_true, if_false] at h
      simp at h
      exact h.symm

theorem runTrace_chain (env : RunEnv) (limit : Option Nat) :
    ∀ (d : Nat) (active : List Src) (i : Nat) (e1 e2 : List Src × Nat),
    (runTrace env limit d active)[i]? = some e1 →
    (runTrace env limit d active)[i + 1]? = some e2 →
    e2.2 + 1 = e1.2 ∧ e2.1 = stepActive env limit e1.2 e1.1 := by
  intro d
  induction d with
  | zero =>
    intro active i e1 e2 h1 h2
    by_cases hc : (active.isEmpty || limitCrossed limit 0) = true
    · simp [runTrace, hc] at h1
    · simp only [runTrace, hc, Bool.false_eq_true, if_false] at h1 h2
      cases i with
      | zero => simp at h2
      | succ j => simp at h2
  | succ d ih =>
    intro active i e1 e2 h1 h2
    by_cases hc : (active.isEmpty || limitCrossed limit (d + 1)) = true
    · simp [runTrace, hc] at h1
    · simp only [runTrace, hc, Bool.false_eq_true, if_false] at h1 h2
      cases i with
      | zero =>
        simp only [List.getElem?_cons_zero, Option.some.injEq] at h1
        simp only [List.getElem?_cons_succ] at h2
        have he2 := runTrace_head env limit d (stepActive env limit (d + 1) active) e2 h2
        subst he2
        rw [← h1]
        exact ⟨rfl, rfl⟩
      | succ j =>
        simp only [List.getElem?_cons_succ] at h1 h2
        exact ih (stepActive env limit (d + 1) active) j e1 e2 h1 h2

theorem runTrace_nodup (env : RunEnv) (limit : Option Nat) :
    ∀ (d : Nat) (active : List Src), active.Nodup →
    ∀ e ∈ runTrace env limit d active, e.1.Nodup := by
  intro d
  induction d with
  | zero =>
    intro active hnd e he
    by_cases hc : (active.isEmpty || limitCrossed limit 0) = true
    · simp [runTrace, hc] at he
    · simp only [runTrace, hc, Bool.false_eq_true, if_false] at he
      simp at he
      rw [he]
      exact hnd
  | succ d ih =>
    intro active hnd e he
    by_cases hc : (active.isEmpty || limitCrossed limit (d + 1)) = true
    · simp [runTrace, hc] at he
    · simp only [runTrace, hc, Bool.false_eq_true, if_false] at he
      rcases List.mem_cons.mp he with he0 | herest
      · rw [he0]
        exact hnd
      · have hnd2 : (stepActive env limit (d + 1) active).Nodup := by
          rw [stepActive_eq_filter env limit (d + 1) active hnd]
          exact hnd.filter _
        exact ih (stepActive env limit (d + 1) active) hnd2 e herest

/-! ## Claim C7 -/

/-- C7: across consecutive orchestrator iterations (entries `i` and `i + 1`
of the run trace, starting from a duplicate-free source list as
`dict.items()` yields), the date cursor decrements by exactly one day, the
new active list is exactly the old one filtered by "day verdict did not
stop" (so a source is removed exactly when its verdict has
`stopped = true`), the active list's size is non-increasing, and a source
absent from one iteration is absent from the next — it is never
re-added within the run. -/
theorem C7_monotone_retirement (env : RunEnv) (limit : Option Nat) (d : Nat)
    (active : List Src) (i : Nat) (a1 a2 : List Src) (d1 d2 : Nat)
    (hnd : active.Nodup)
    (h1 : (runTrace env limit d active)[i]? = some (a1, d1))
    (h2 : (runTrace env limit d active)[i + 1]? = some (a2, d2)) :
    d2 + 1 = d1
    ∧ a2 = a1.filter (fun s => !(stopsOn env limit d1 s))
    ∧ a2.length ≤ a1.length
    ∧ (∀ s ∈ a1, stopsOn env limit d1 s = true → s ∉ a2)
    ∧ (∀ s ∈ a1, stopsOn env limit d1 s = false → s ∈ a2)
    ∧ (∀ s : Src, s ∉ a1 → s ∉ a2) := by
  have hch := runTrace_chain env limit d active i (a1, d1) (a2, d2) h1 h2
  have hnd1 : a1.Nodup :=
    runTrace_nodup env limit d active hnd (a1, d1) (List.getElem?_mem h1)
  have hfil : a2 = a1.filter (fun s => !(stopsOn env limit d1 s)) := by
    have hstep : a2 = stepActive env limit d1 a1 := hch.2
    rw [hstep]
    exact stepActive_eq_filter env limit d1 a1 hnd1
  refine ⟨hch.1, hfil, ?_, ?_, ?_, ?_⟩
  · rw [hfil]
    exact List.length_filter_le _ _
  · intro s hs hstop
    rw [hfil]
    simp [List.mem_filter, hstop]
  · intro s hs hnostop
    rw [hfil]
    simp [List.mem_filter, hs, hnostop]
  · intro s hs
    rw [hfil]
    intro hmem
    exact hs (List.mem_of_mem_filter hmem)

/-- A source-and-date whose listing never materializes (stop verdict). -/
def dayStop : DayEnv :=
  { listing := none,
    dbInit := fun _ => false, dbErr := fun _ => false,
    extract := fun _ => none,
    sink := fun _ => .ok }

/-- A source-and-date whose listing materializes but holds no references
(walk ends, no stop verdict). -/
def dayGo : DayEnv :=
  { listing := some [[]],
    dbInit := fun _ => false, dbErr := fun _ => false,
    extract := fun _ => none,
    sink := fun _ => .ok }

/-- Two sources; source "A" reaches its frontier on day 2, source "B"
never does. -/
def envC7 : RunEnv :=
  ⟨fun s e => if s.2 == "A" && e == 2 then dayStop else dayGo⟩

/-- Witness for C7: on the two-source run starting at day 2, iteration 0
retires exactly source "A"; the trace's cursor goes 2, 1, 0 and the
consecutive-iteration facts delivered by the theorem hold concretely. -/
theorem C7_monotone_retirement_witness :
    ([(("a", "A") : Src), ("b", "B")].Nodup)
    ∧ (runTrace envC7 none 2 [("a", "A"), ("b", "B")])[0]?
        = some ([("a", "A"), ("b", "B")], 2)
    ∧ (runTrace envC7 none 2 [("a", "A"), ("b", "B")])[0 + 1]?
        = some ([("b", "B")], 1)
    ∧ (1 + 1 = 2
       ∧ [(("b", "B") : Src)]
          = [(("a", "A") : Src), ("b", "B")].filter (fun s => !(stopsOn envC7 none 2 s))
       ∧ [(("b", "B") : Src)].length ≤ [(("a", "A") : Src), ("b", "B")].length)
    ∧ (runTrace envC7 none 2 [("a", "A"), ("b", "B")]).map Prod.snd = [2, 1, 0] :=
  ⟨by decide, by decide, by decide,
   ⟨(C7_monotone_retirement envC7 none 2 [("a", "A"), ("b", "B")] 0
       [("a", "A"), ("b", "B")] [("b", "B")] 2 1 (by decide) (by decide) (by decide)).1,
    (C7_monotone_retirement envC7 none 2 [("a", "A"), ("b", "B")] 0
       [("a", "A"), ("b", "B")] [("b", "B")] 2 1 (by decide) (by decide) (by decide)).2.1,
    (C7_monotone_retirement envC7 none 2 [("a", "A"), ("b", "B")] 0
       [("a", "A"), ("b", "B")] [("b", "B")] 2 1 (by decide) (by decide) (by decide)).2.2.1⟩,
   by decide⟩

/-! ## Claim C8 -/

/-- A run environment in which no source ever reaches a stop verdict:
every listing materializes but holds no references. -/
def envC8 : RunEnv :=
  ⟨fun _ _ => dayGo⟩

/-- C8 counterexample: the claim enumerates "active empty", "floor
crossed" and "external cancellation" as the only ways the loop ends, but
with no floor configured and a source that never stops, the loop instead
ends by the date cursor underflowing the representable date range
(`datetime.min`; the `OverflowError` of the final decrement is caught by
the orchestrator's `except Exception`): the run below ends after 3
iterations with its source still active and no floor configured. -/
theorem C8_termination_counterexample :
    (runLoop envC8 none 2 [("press", "009")]).reason = .dateUnderflow
    ∧ (runLoop envC8 none 2 [("press", "009")]).active = [("press", "009")]
    ∧ (runLoop envC8 none 2 [("press", "009")]).iters = 3 := by
  decide

/-- C8 (amended): every run terminates — the loop executes at most
`d + 1` iterations from start date `d` (there is no configuration that
iterates forever) — and it ends in exactly one of three ways: the active
set became empty, the configured floor date was crossed, or the date
cursor underflowed at `datetime.min` (external cancellation, an
asynchronous interrupt, is outside the model). -/
theorem C8_run_terminates (env : RunEnv) (limit : Option Nat) :
    ∀ (d : Nat) (active : List Src),
    (runLoop env limit d active).iters ≤ d + 1
    ∧ ((runLoop env limit d active).reason = .activeExhausted →
        (runLoop env limit d active).active = [])
    ∧ ((runLoop env limit d active).reason = .floorCrossed →
        limitCrossed limit (runLoop env limit d active).finalDate = true)
    ∧ ((runLoop env limit d active).reason = .dateUnderflow →
        (runLoop env limit d active).finalDate = 0) := by
  intro d
  induction d with
  | zero =>
    intro active
    by_cases h1 : active.isEmpty = true
    · refine ⟨?_, ?_, ?_, ?_⟩ <;> simp [runLoop, h1]
      exact List.isEmpty_iff.mp h1
    · by_cases h2 : limitCrossed limit 0 = true
      · refine ⟨?_, ?_, ?_, ?_⟩ <;> simp [runLoop, h1, h2]
      · refine ⟨?_, ?_, ?_, ?_⟩ <;> simp [runLoop, h1, h2]
  | succ d ih =>
    intro active
    by_cases h1 : active.isEmpty = true
    · refine ⟨?_, ?_, ?_, ?_⟩ <;> simp [runLoop, h1]
      exact List.isEmpty_iff.mp h1
    · by_cases h2 : limitCrossed limit (d + 1) = true
      · refine ⟨?_, ?_, ?_, ?_⟩ <;> simp [runLoop, h1, h2]
      · have hr := ih (stepActive env limit (d + 1) active)
        refine ⟨?_, ?_, ?_, ?_⟩ <;> simp [runLoop, h1, h2]
        · exact hr.1
        · exact hr.2.1
        · exact hr.2.2.1
        · exact hr.2.2.2

/-- Witness for C8 (amended) at a concrete configuration: a bounded
iteration count and the reason characterization, on the never-stopping
single-source run without a floor. -/
theorem C8_run_terminates_witness :
    (runLoop envC8 none 2 [("press", "009")]).iters ≤ 2 + 1
    ∧ ((runLoop envC8 none 2 [("press", "009")]).reason = .dateUnderflow →
        (runLoop envC8 none 2 [("press", "009")]).finalDate = 0) :=
  ⟨(C8_run_terminates envC8 none 2 [("press", "009")]).1,
   (C8_run_terminates envC8 none 2 [("press", "009")]).2.2.2⟩

end Crawler
